import Mathlib

/-!
Shallow embedding of the metadata-transfer pipeline of
`gittransfer-metadata.py` (GitLab → GitHub metadata transfer tool).

Pure functions of the source are translated into Lean functions; the
stateful parts (the destination repository, the rate-limit flag, the
retry loop) are modelled by explicit state passing.  External calls that
can fail (destination lookups/creates, source enumerations) are modelled
with `Except`/oracle parameters.  Python strings are `String`, Python
ints are `Int` (or `Nat` where the source value is a count), `None`-able
fields are `Option`.
-/

namespace GitTransfer

/-! ## Configuration constants (source lines 41–43) -/

def RATE_LIMIT_BUFFER : Nat := 10

def MAX_RETRY_ATTEMPTS : Nat := 3

def RETRY_DELAY_SECONDS : Nat := 2

/-! ## Data model -/

/-- `UserMapping` dataclass (source lines 48–56): maps GitLab users to
GitHub users. -/
structure UserMapping where
  gitlab_username : String
  gitlab_id : Int
  github_username : Option String := none
  github_id : Option Int := none
  fallback_name : Option String := none
  email : Option String := none
deriving DecidableEq, Repr

/-- Python truthiness of an optional string: `None` and `""` are falsy. -/
def truthyStr : Option String → Bool
  | none => false
  | some s => s ≠ ""

/-- The flat-dictionary form of a `UserMapping`, as produced by
`dataclasses.asdict` and stored in the export file / in comment
records.  Structurally the same fields, but a distinct type: a dict is
not a `UserMapping` object. -/
structure UserDict where
  gitlab_username : String
  gitlab_id : Int
  github_username : Option String
  github_id : Option Int
  fallback_name : Option String
  email : Option String
deriving DecidableEq, Repr

/-- `dataclasses.asdict` on a `UserMapping`. -/
def asdictUser (u : UserMapping) : UserDict :=
  ⟨u.gitlab_username, u.gitlab_id, u.github_username, u.github_id,
   u.fallback_name, u.email⟩

/-- `UserMapping(**d)`: rebuild the dataclass from its dict form
(source lines 594, 1026, 1127). -/
def kwargsUser (d : UserDict) : UserMapping :=
  ⟨d.gitlab_username, d.gitlab_id, d.github_username, d.github_id,
   d.fallback_name, d.email⟩

/-- A comment record as built by the extractor (source lines 187–194):
a plain dict whose `author` entry is itself the dict form of a
`UserMapping` (`asdict(comment_author)`). -/
structure CommentData where
  id : Int
  body : String
  created_at : String
  updated_at : String
  author : UserDict
  gitlab_url : String
deriving DecidableEq, Repr

/-- `IssueData` dataclass (source lines 73–89). -/
structure IssueData where
  id : Int
  iid : Int
  title : String
  description : String
  state : String
  created_at : String
  updated_at : String
  closed_at : Option String
  author : UserMapping
  assignees : List UserMapping
  labels : List String
  milestone : Option String
  comments : List CommentData
  gitlab_url : String
deriving DecidableEq, Repr

/-- `MergeRequestData` dataclass (source lines 92–112). -/
structure MergeRequestData where
  id : Int
  iid : Int
  title : String
  description : String
  state : String
  created_at : String
  updated_at : String
  closed_at : Option String
  merged_at : Option String
  author : UserMapping
  assignee : Option UserMapping
  labels : List String
  milestone : Option String
  source_branch : String
  target_branch : String
  comments : List CommentData
  gitlab_url : String
  sha : Option String
deriving DecidableEq, Repr

/-! ## Identity resolution (source lines 400–415) -/

/-- `GitHubMetadataImporter.resolve_github_username` (source lines
400–407): resolve a GitLab user to a GitHub mention or fallback.  The
Python conditions are truthiness tests on the optional string fields. -/
def resolve_github_username (m : UserMapping) : String :=
  if truthyStr m.github_username then
    "@" ++ m.github_username.getD ""
  else if truthyStr m.fallback_name then
    m.fallback_name.getD ""
  else
    "@" ++ m.gitlab_username ++ " (GitLab)"

/-- `GitHubMetadataImporter.format_gitlab_metadata` (source lines
409–415): provenance footer appended to migrated bodies. -/
def format_gitlab_metadata (original_url created_at : String)
    (author : UserMapping) : String :=
  "\n\n---\n*Originally created by " ++ resolve_github_username author ++
  " on " ++ created_at ++ " in [GitLab](" ++ original_url ++ ")*\n"

/-! ## Retry with backoff (source lines 379–398)

`retry_with_backoff` runs `func` for `attempt in range(MAX_RETRY_ATTEMPTS)`;
a successful attempt returns immediately; a failing attempt other than
the last sleeps `(2 ** attempt) * RETRY_DELAY_SECONDS` and continues;
the last failing attempt re-raises.  The wrapped call is modelled by a
function from the attempt index to an `Except` outcome; the result
records the sleeps performed (in order), the number of attempts made,
and the final outcome (`none` would mean the Python loop fell through,
which cannot happen while the attempt list is nonempty). -/

def retry_go {E A : Type} (f : Nat → Except E A) :
    List Nat → List Nat × Nat × Option (Except E A)
  | [] => ([], 0, none)
  | attempt :: rest =>
    match f attempt with
    | Except.ok a => ([], 1, some (Except.ok a))
    | Except.error e =>
      if attempt < MAX_RETRY_ATTEMPTS - 1 then
        let w := 2 ^ attempt * RETRY_DELAY_SECONDS
        let (ws, c, r) := retry_go f rest
        (w :: ws, c + 1, r)
      else ([], 1, some (Except.error e))

/-- `GitHubMetadataImporter.retry_with_backoff` (source lines 379–398),
returning the sleep schedule, the attempt count and the outcome. -/
def retry_with_backoff {E A : Type} (f : Nat → Except E A) :
    List Nat × Nat × Option (Except E A) :=
  retry_go f (List.range MAX_RETRY_ATTEMPTS)

/-! ## Rate-limit probe (source lines 355–377)

`check_rate_limit` reads the remaining core quota; below
`RATE_LIMIT_BUFFER` it warns once (guarded by the `rate_limit_warned`
flag, which it then sets); at exactly zero it sleeps until the reset
time, clears the flag and re-probes recursively.  The successive
`get_rate_limit` readings are modelled as a list of `Nat`s consumed
left to right; the result is the number of warnings emitted, the final
flag value, and the unconsumed readings. -/

def check_rate_limit : List Nat → Bool → Nat × Bool × List Nat
  | [], warned => (0, warned, [])
  | remaining :: rest, warned =>
    if remaining < RATE_LIMIT_BUFFER then
      let warnedNow : Nat := if warned then 0 else 1
      if remaining = 0 then
        let (n, w2, rest2) := check_rate_limit rest false
        (warnedNow + n, w2, rest2)
      else
        (warnedNow, true, rest)
    else
      (0, warned, rest)

/-- A sequence of importer calls, each probing the rate limit once with
one fresh reading (`check_rate_limit` invoked once per wrapped call,
source line 383), threading the `rate_limit_warned` flag. -/
def run_rate_checks : List (List Nat) → Bool → Nat × Bool
  | [], warned => (0, warned)
  | obs :: calls, warned =>
    let (n, w2, _) := check_rate_limit obs warned
    let (m, w3) := run_rate_checks calls w2
    (n + m, w3)

/-! ## Destination repository model

The destination (GitHub) repository is modelled by the labels and
milestones it currently holds; `get_label` / `get_milestones` /
`create_label` / `create_milestone` read and extend this state.  The
call trace of the importer is recorded as a list of `Event`s. -/

/-- A label object on the destination repository. -/
structure GHLabel where
  name : String
  color : String
  description : String
deriving DecidableEq, Repr

/-- A milestone object on the destination repository. -/
structure GHMilestone where
  title : String
  description : String
  state : String
  due_on : Option String
deriving DecidableEq, Repr

/-- Destination repository state: the labels and milestones present. -/
structure RepoState where
  labels : List GHLabel
  milestones : List GHMilestone
deriving DecidableEq, Repr

/-- Label record produced by `GitLabMetadataExtractor.extract_labels`
(source lines 317–321): a dict with name, description and color. -/
structure LabelDict where
  name : String
  description : String
  color : String
deriving DecidableEq, Repr

/-- Milestone record produced by
`GitLabMetadataExtractor.extract_milestones` (source lines 332–338). -/
structure MilestoneDict where
  title : String
  description : String
  state : String
  due_date : Option String
  created_at : String
  updated_at : String
deriving DecidableEq, Repr

/-- Destination-system call made by the importer. -/
inductive Event where
  | getLabel (name : String) (found : Bool)
  | createLabel (name : String)
  | listMilestones
  | createMilestone (title : String)
  | createIssue (iid : Int)
  | createComment (iid : Int) (commentId : Int)
  | closeIssue (iid : Int)
deriving DecidableEq, Repr

/-- Events issued while importing labels and milestones. -/
def Event.isSetup : Event → Bool
  | .getLabel _ _ => true
  | .createLabel _ => true
  | .listMilestones => true
  | .createMilestone _ => true
  | _ => false

/-- Recognize a create-issue call. -/
def Event.isCreateIssue : Event → Bool
  | .createIssue _ => true
  | _ => false

/-- Python dict assignment `d[k] = v` on a name-keyed result table,
preserving insertion order. -/
def dictInsert {α : Type} : List (String × α) → String → α → List (String × α)
  | [], k, v => [(k, v)]
  | p :: rest, k, v =>
    if p.1 == k then (k, v) :: rest else p :: dictInsert rest k v

/-- `repo.get_label(name)`: look a label up by name on the destination;
`none` models the 404 "not found" response. -/
def get_label (st : RepoState) (name : String) : Option GHLabel :=
  st.labels.find? (fun l => l.name == name)

/-- Milestone lookup in `import_milestones` (source lines 480–484):
scan `repo.get_milestones(state='all')` for a matching title. -/
def find_milestone (st : RepoState) (title : String) : Option GHMilestone :=
  st.milestones.find? (fun ms => ms.title == title)

/-- `datetime.fromisoformat` applied to the `Z`-normalized due date
(source line 494); parse failures, swallowed by the bare `except` in
the source, are not modelled. -/
def parse_due_date (s : String) : Option String :=
  some (s.replace "Z" "+00:00")

/-- The label created by `repo.create_label` (source lines 443–448):
name and color from the record, description truncated to 100
characters when truthy. -/
def new_label (ld : LabelDict) : GHLabel :=
  ⟨ld.name, ld.color,
   if ld.description ≠ "" then ld.description.take 100 else ""⟩

/-- Effect of a successful `create_label` on the repository state. -/
def add_label (st : RepoState) (l : GHLabel) : RepoState :=
  { st with labels := st.labels ++ [l] }

/-- Loop body of `GitHubMetadataImporter.import_labels` (source lines
417–462): for each label record, look it up by name; on a hit reuse the
existing destination object, on a 404 create it; record the object in
the result table under its name.  Returns the result table, the final
repository state and the call trace. -/
def import_labels_go (st : RepoState) (acc : List (String × GHLabel)) :
    List LabelDict → List (String × GHLabel) × RepoState × List Event
  | [] => (acc, st, [])
  | ld :: rest =>
    match get_label st ld.name with
    | some l =>
      let (r, st2, t) := import_labels_go st (dictInsert acc ld.name l) rest
      (r, st2, Event.getLabel ld.name true :: t)
    | none =>
      let (r, st2, t) :=
        import_labels_go (add_label st (new_label ld))
          (dictInsert acc ld.name (new_label ld)) rest
      (r, st2, Event.getLabel ld.name false :: Event.createLabel ld.name :: t)

/-- `GitHubMetadataImporter.import_labels` (source lines 417–462). -/
def import_labels (labels : List LabelDict) (st : RepoState) :
    List (String × GHLabel) × RepoState × List Event :=
  import_labels_go st [] labels

/-- The milestone created by `repo.create_milestone` (source lines
490–504): description truncated to 200 characters when truthy, state
collapsed to closed/open, due date parsed when truthy. -/
def new_milestone (md : MilestoneDict) : GHMilestone :=
  ⟨md.title,
   (if md.description ≠ "" then md.description.take 200 else ""),
   (if md.state == "closed" then "closed" else "open"),
   (match md.due_date with
    | some s => if s ≠ "" then parse_due_date s else none
    | none => none)⟩

/-- Effect of a successful `create_milestone` on the repository
state. -/
def add_milestone (st : RepoState) (m : GHMilestone) : RepoState :=
  { st with milestones := st.milestones ++ [m] }

/-- Loop body of `GitHubMetadataImporter.import_milestones` (source
lines 464–516): for each milestone record, scan the destination
milestones for the title; on a hit reuse the existing object, otherwise
create one. -/
def import_milestones_go (st : RepoState) (acc : List (String × GHMilestone)) :
    List MilestoneDict → List (String × GHMilestone) × RepoState × List Event
  | [] => (acc, st, [])
  | md :: rest =>
    match find_milestone st md.title with
    | some ms =>
      let (r, st2, t) := import_milestones_go st (dictInsert acc md.title ms) rest
      (r, st2, Event.listMilestones :: t)
    | none =>
      let (r, st2, t) :=
        import_milestones_go (add_milestone st (new_milestone md))
          (dictInsert acc md.title (new_milestone md)) rest
      (r, st2, Event.listMilestones :: Event.createMilestone md.title :: t)

/-- `GitHubMetadataImporter.import_milestones` (source lines 464–516). -/
def import_milestones (milestones : List MilestoneDict) (st : RepoState) :
    List (String × GHMilestone) × RepoState × List Event :=
  import_milestones_go st [] milestones

/-! ## Issue import (source lines 518–605) -/

/-- Correlation record appended to `imported_issues` (source lines
572–577). -/
structure ImportedIssue where
  gitlab_id : Int
  gitlab_iid : Int
  github_number : Nat
  github_url : String
deriving DecidableEq, Repr

/-- Issue body construction (source lines 534–543): original
description plus provenance footer, or a placeholder plus footer when
the description is empty. -/
def issue_body (d : IssueData) : String :=
  if d.description ≠ "" then
    d.description ++ format_gitlab_metadata d.gitlab_url d.created_at d.author
  else
    "*Issue imported from GitLab*" ++
      format_gitlab_metadata d.gitlab_url d.created_at d.author

/-- Comment body construction in `import_issue_comments` (source lines
594–600): original body plus provenance footer; the stored author dict
is rebuilt into a `UserMapping` first. -/
def comment_body (c : CommentData) : String :=
  c.body ++ "\n\n---\n*Originally commented by " ++
  resolve_github_username (kwargsUser c.author) ++ " on " ++ c.created_at ++
  " in [GitLab](" ++ c.gitlab_url ++ ")*"

/-- `GitHubMetadataImporter.import_issue_comments` (source lines
590–605): one `create_comment` call per comment; a per-comment failure
(`commentOk c = false`, the wrapped call raising after its retries) is
caught inside the loop and logged, so the loop always continues and the
function never raises.  Returns the call trace. -/
def import_issue_comments (commentOk : CommentData → Bool) (iid : Int) :
    List CommentData → List Event
  | [] => []
  | c :: rest =>
    if commentOk c then
      Event.createComment iid c.id :: import_issue_comments commentOk iid rest
    else
      import_issue_comments commentOk iid rest

/-- Loop body of `GitHubMetadataImporter.import_issues` (source lines
518–588).  `createOk d` / `editOk d` model whether the retried
`create_issue` / `edit(state='closed')` calls ultimately succeed;
either one raising is caught by the per-issue handler (source line
582), which skips the correlation record and moves on.  Comments are
imported immediately after issue creation and before the close
transition; `n` is the next destination issue number. -/
def import_issues_go (createOk editOk : IssueData → Bool)
    (commentOk : CommentData → Bool) (ils : List (String × GHLabel))
    (ims : List (String × GHMilestone)) (repoUrl : String) :
    List IssueData → Nat → List ImportedIssue × List Event
  | [], _ => ([], [])
  | d :: rest, n =>
    let body := issue_body d
    let github_labels := d.labels.filterMap (fun nm => List.lookup nm ils)
    let milestone : Option GHMilestone :=
      if truthyStr d.milestone then List.lookup (d.milestone.getD "") ims
      else none
    if createOk d then
      let commentEvents := import_issue_comments commentOk d.iid d.comments
      let record : ImportedIssue :=
        ⟨d.id, d.iid, n, repoUrl ++ "/issues/" ++ toString n⟩
      if d.state == "closed" then
        if editOk d then
          let (ri, re) :=
            import_issues_go createOk editOk commentOk ils ims repoUrl rest (n + 1)
          (record :: ri,
           Event.createIssue d.iid ::
             commentEvents ++ Event.closeIssue d.iid :: re)
        else
          let (ri, re) :=
            import_issues_go createOk editOk commentOk ils ims repoUrl rest (n + 1)
          (ri, Event.createIssue d.iid :: commentEvents ++ re)
      else
        let (ri, re) :=
          import_issues_go createOk editOk commentOk ils ims repoUrl rest (n + 1)
        (record :: ri, Event.createIssue d.iid :: commentEvents ++ re)
    else
      import_issues_go createOk editOk commentOk ils ims repoUrl rest n

/-- The destination calls made for one issue: creation, then its
comments, then (for a closed issue whose edit succeeds) the close
transition; a failed creation makes no destination-visible calls. -/
def issue_block (createOk editOk : IssueData → Bool)
    (commentOk : CommentData → Bool) (d : IssueData) : List Event :=
  if createOk d then
    Event.createIssue d.iid ::
      import_issue_comments commentOk d.iid d.comments ++
      (if d.state == "closed" && editOk d then [Event.closeIssue d.iid] else [])
  else []

/-- Result of one `MetadataTransferTool.import_metadata` run. -/
structure ImportRun where
  imported_labels : List (String × GHLabel)
  imported_milestones : List (String × GHMilestone)
  imported_issues : List ImportedIssue
  state : RepoState
  trace : List Event
deriving Repr

/-- Import phase of `MetadataTransferTool.import_metadata` (source
lines 1141–1154): labels first, then milestones, then issues with the
just-built reference tables; merge requests are summarized but never
created. -/
def import_metadata_run (labels : List LabelDict)
    (milestones : List MilestoneDict) (issues : List IssueData)
    (createOk editOk : IssueData → Bool) (commentOk : CommentData → Bool)
    (repoUrl : String) (st : RepoState) : ImportRun :=
  let (ils, st1, t1) := import_labels labels st
  let (ims, st2, t2) := import_milestones milestones st1
  let (ri, t3) :=
    import_issues_go createOk editOk commentOk ils ims repoUrl issues 1
  ⟨ils, ims, ri, st2, (t1 ++ t2) ++ t3⟩

/-! ## Extraction side (source lines 115–343)

Source-system objects are modelled by records holding exactly the
attributes the extractor reads.  The four category enumerations of the
project handle are `Except`-valued: an error models the `list` call
raising (permission denied, API failure). -/

/-- A GitLab note as read by the extractor (system flag, author id,
body, timestamps). -/
structure SrcNote where
  id : Int
  body : String
  created_at : String
  updated_at : String
  system : Bool
  author_id : Int
deriving DecidableEq, Repr

/-- A GitLab issue as read by the extractor.  `notes = none` models the
per-issue `notes.list` call raising (caught at source lines 195–196,
leaving the comment list empty). -/
structure SrcIssue where
  id : Int
  iid : Int
  title : String
  description : Option String
  state : String
  created_at : String
  updated_at : String
  closed_at : Option String
  author_id : Int
  assignees : List Int
  assignee : Option Int
  labels : List String
  milestone : Option String
  notes : Option (List SrcNote)
deriving DecidableEq, Repr

/-- A GitLab merge request as read by the extractor. -/
structure SrcMR where
  id : Int
  iid : Int
  title : String
  description : Option String
  state : String
  created_at : String
  updated_at : String
  closed_at : Option String
  merged_at : Option String
  author_id : Int
  assignee : Option Int
  labels : List String
  milestone : Option String
  source_branch : String
  target_branch : String
  notes : Option (List SrcNote)
  sha : Option String
deriving DecidableEq, Repr

/-- A GitLab label as read by `extract_labels` (source lines 316–321). -/
structure SrcLabel where
  name : String
  description : String
  color : Option String
deriving DecidableEq, Repr

/-- A GitLab milestone as read by `extract_milestones` (source lines
331–338). -/
structure SrcMilestone where
  title : String
  description : String
  state : String
  due_date : Option String
  created_at : String
  updated_at : String
deriving DecidableEq, Repr

/-- The GitLab project handle: its web URL and the four category
enumerations, each either a full listing or a raised exception. -/
structure GitLabProject where
  web_url : String
  issues_list : Except String (List SrcIssue)
  mrs_list : Except String (List SrcMR)
  labels_list : Except String (List SrcLabel)
  milestones_list : Except String (List SrcMilestone)

/-- Placeholder mapping synthesized by `get_user_mapping` when the
user fetch fails (source lines 138–142). -/
def placeholder_user (i : Int) : UserMapping :=
  ⟨"user_" ++ toString i, i, none, none,
   some ("Unknown User " ++ toString i), none⟩

/-- Note extraction shared by issues and merge requests (source lines
184–194 and 266–276): drop system notes, resolve each author and store
it in dict form. -/
def extract_notes (getU : Int → UserMapping) (noteUrl : Int → String) :
    Option (List SrcNote) → List CommentData
  | none => []
  | some ns =>
    (ns.filter (fun n => !n.system)).map
      (fun n => ⟨n.id, n.body, n.created_at, n.updated_at,
                 asdictUser (getU n.author_id), noteUrl n.id⟩)

/-- Per-issue extraction (source lines 169–213): resolve the author,
the assignees (multi-assignee shape when nonempty, otherwise the
single-assignee shape), the non-system comments, and record the
milestone by title. -/
def issue_from_src (getU : Int → UserMapping) (projUrl : String)
    (s : SrcIssue) : IssueData :=
  let author := getU s.author_id
  let assignees :=
    if s.assignees ≠ [] then s.assignees.map getU
    else
      match s.assignee with
      | some a => [getU a]
      | none => []
  ⟨s.id, s.iid, s.title, s.description.getD "", s.state, s.created_at,
   s.updated_at, s.closed_at, author, assignees, s.labels, s.milestone,
   extract_notes getU
     (fun nid => projUrl ++ "/-/issues/" ++ toString s.iid ++
       "#note_" ++ toString nid) s.notes,
   projUrl ++ "/-/issues/" ++ toString s.iid⟩

/-- Per-merge-request extraction (source lines 248–299). -/
def mr_from_src (getU : Int → UserMapping) (projUrl : String)
    (mr : SrcMR) : MergeRequestData :=
  ⟨mr.id, mr.iid, mr.title, mr.description.getD "", mr.state,
   mr.created_at, mr.updated_at, mr.closed_at, mr.merged_at,
   getU mr.author_id,
   (match mr.assignee with
    | some a => some (getU a)
    | none => none),
   mr.labels, mr.milestone, mr.source_branch, mr.target_branch,
   extract_notes getU
     (fun nid => projUrl ++ "/-/merge_requests/" ++ toString mr.iid ++
       "#note_" ++ toString nid) mr.notes,
   projUrl ++ "/-/merge_requests/" ++ toString mr.iid, mr.sha⟩

/-- Merge-request loop of `extract_merge_requests` (source lines
248–307): any merge request not in state closed or merged is skipped
before any other processing. -/
def extract_mrs_go (getU : Int → UserMapping) (projUrl : String) :
    List SrcMR → List MergeRequestData
  | [] => []
  | mr :: rest =>
    if mr.state = "closed" ∨ mr.state = "merged" then
      mr_from_src getU projUrl mr :: extract_mrs_go getU projUrl rest
    else
      extract_mrs_go getU projUrl rest

/-- `GitLabMetadataExtractor.extract_issues` (source lines 147–224).
The category enumeration itself is not guarded by any handler, so an
enumeration failure propagates to the caller. -/
def extract_issues (getU : Int → UserMapping) (p : GitLabProject) :
    Except String (List IssueData) :=
  match p.issues_list with
  | Except.error e => Except.error e
  | Except.ok l => Except.ok (l.map (issue_from_src getU p.web_url))

/-- `GitLabMetadataExtractor.extract_merge_requests` (source lines
226–310).  As with issues, the enumeration itself is unguarded. -/
def extract_merge_requests (getU : Int → UserMapping) (p : GitLabProject) :
    Except String (List MergeRequestData) :=
  match p.mrs_list with
  | Except.error e => Except.error e
  | Except.ok l => Except.ok (extract_mrs_go getU p.web_url l)

/-- Color normalization in `extract_labels` (source line 320):
`label.color.lstrip('#') if label.color else 'ffffff'`. -/
def label_color (c : Option String) : String :=
  match c with
  | some s => if s ≠ "" then String.mk (s.toList.dropWhile (· = '#')) else "ffffff"
  | none => "ffffff"

/-- `GitLabMetadataExtractor.extract_labels` (source lines 312–325):
the whole loop is inside a try/except, so an enumeration failure is
logged and the accumulated (empty) list is returned. -/
def extract_labels (p : GitLabProject) : List LabelDict :=
  match p.labels_list with
  | Except.ok ls => ls.map (fun l => ⟨l.name, l.description, label_color l.color⟩)
  | Except.error _ => []

/-- `GitLabMetadataExtractor.extract_milestones` (source lines
327–343): same guarded shape as `extract_labels`. -/
def extract_milestones (p : GitLabProject) : List MilestoneDict :=
  match p.milestones_list with
  | Except.ok ms =>
    ms.map (fun m => ⟨m.title, m.description, m.state, m.due_date,
                      m.created_at, m.updated_at⟩)
  | Except.error _ => []

/-! ## Python set semantics for `UserMapping` (source lines 48–56,
1020–1033)

`UserMapping` is declared `@dataclass` with the defaults `eq=True`,
`frozen=False`.  Python then generates `__eq__` comparing the full
field tuple and sets `__hash__ = None`, so instances are unhashable and
`set.add` on one raises `TypeError`. -/

/-- Whether a `UserMapping` instance can be hashed: `False`, because
`@dataclass` with `eq=True` and `frozen=False` sets `__hash__ = None`. -/
def userMappingHashable : Bool := false

/-- The generated dataclass `__eq__`: the full field tuple, not just
the source username and id. -/
def dataclass_eq (a b : UserMapping) : Bool :=
  a.gitlab_username == b.gitlab_username && a.gitlab_id == b.gitlab_id &&
  a.github_username == b.github_username && a.github_id == b.github_id &&
  a.fallback_name == b.fallback_name && a.email == b.email

/-- `s.add(u)` on a Python set of `UserMapping`s: raises `TypeError`
for an unhashable element; would otherwise keep one element per
equality class. -/
def pySetAdd (s : List UserMapping) (u : UserMapping) :
    Except String (List UserMapping) :=
  if userMappingHashable then
    Except.ok (if s.any (fun v => dataclass_eq v u) then s else s ++ [u])
  else
    Except.error "TypeError: unhashable type"

/-- `s.update(us)`: add every element in turn. -/
def pySetAddAll (s : List UserMapping) :
    List UserMapping → Except String (List UserMapping)
  | [] => Except.ok s
  | u :: rest => do
    let s1 ← pySetAdd s u
    pySetAddAll s1 rest

/-- The user-collection pass of `MetadataTransferTool.export_metadata`
(source lines 1020–1033): add every issue author, assignee and comment
author, then every merge-request author, optional assignee and comment
author, to one set. -/
def collect_all_users (issues : List IssueData)
    (mrs : List MergeRequestData) : Except String (List UserMapping) := do
  let s ← issues.foldlM
    (fun s issue => do
      let s1 ← pySetAdd s issue.author
      let s2 ← pySetAddAll s1 issue.assignees
      issue.comments.foldlM (fun t c => pySetAdd t (kwargsUser c.author)) s2)
    []
  mrs.foldlM
    (fun s mr => do
      let s1 ← pySetAdd s mr.author
      let s2 ← (match mr.assignee with
        | some a => pySetAdd s1 a
        | none => pure s1)
      mr.comments.foldlM (fun t c => pySetAdd t (kwargsUser c.author)) s2)
    s

/-- The snapshot aggregate written to `metadata_export.json` (source
lines 1036–1048), minus the project-info header. -/
structure ExportData where
  issues : List IssueData
  merge_requests : List MergeRequestData
  labels : List LabelDict
  milestones : List MilestoneDict
deriving Repr

/-- `MetadataTransferTool.export_metadata` (source lines 1004–1068):
extract the four categories, collect the unique users, and write the
snapshot.  The whole body is inside one try/except, so any exception
raised by a step makes the export fail as a whole. -/
def export_metadata (getU : Int → UserMapping) (p : GitLabProject) :
    Except String ExportData :=
  match extract_issues getU p with
  | Except.error e => Except.error e
  | Except.ok issues =>
    match extract_merge_requests getU p with
    | Except.error e => Except.error e
    | Except.ok mrs =>
      let labels := extract_labels p
      let milestones := extract_milestones p
      match collect_all_users issues mrs with
      | Except.error e => Except.error e
      | Except.ok _ => Except.ok ⟨issues, mrs, labels, milestones⟩

/-! ## Snapshot serialization round trip (source lines 1036–1053 and
1120–1139)

`asdict` recursively flattens the dataclasses into dicts (comments are
already dicts); `import_metadata` rebuilds `UserMapping` objects for
each issue author and assignee and for each merge-request author and
truthy assignee, then rebuilds the dataclass records with `**`. -/

/-- The dict form of an `IssueData` produced by `asdict` (source line
1044): nested `UserMapping`s become dicts. -/
structure IssueDict where
  id : Int
  iid : Int
  title : String
  description : String
  state : String
  created_at : String
  updated_at : String
  closed_at : Option String
  author : UserDict
  assignees : List UserDict
  labels : List String
  milestone : Option String
  comments : List CommentData
  gitlab_url : String
deriving DecidableEq, Repr

/-- The dict form of a `MergeRequestData` produced by `asdict` (source
line 1045). -/
structure MergeRequestDict where
  id : Int
  iid : Int
  title : String
  description : String
  state : String
  created_at : String
  updated_at : String
  closed_at : Option String
  merged_at : Option String
  author : UserDict
  assignee : Option UserDict
  labels : List String
  milestone : Option String
  source_branch : String
  target_branch : String
  comments : List CommentData
  gitlab_url : String
  sha : Option String
deriving DecidableEq, Repr

/-- `asdict(issue)` (source line 1044). -/
def asdict_issue (i : IssueData) : IssueDict :=
  ⟨i.id, i.iid, i.title, i.description, i.state, i.created_at,
   i.updated_at, i.closed_at, asdictUser i.author,
   i.assignees.map asdictUser, i.labels, i.milestone, i.comments,
   i.gitlab_url⟩

/-- `asdict(mr)` (source line 1045). -/
def asdict_mr (m : MergeRequestData) : MergeRequestDict :=
  ⟨m.id, m.iid, m.title, m.description, m.state, m.created_at,
   m.updated_at, m.closed_at, m.merged_at, asdictUser m.author,
   m.assignee.map asdictUser, m.labels, m.milestone, m.source_branch,
   m.target_branch, m.comments, m.gitlab_url, m.sha⟩

/-- Issue reconstruction in `import_metadata` (source lines 1126–1129):
rebuild the author and the assignees as `UserMapping` objects, then the
record itself; comment dicts are taken over as they are. -/
def rebuild_issue (d : IssueDict) : IssueData :=
  ⟨d.id, d.iid, d.title, d.description, d.state, d.created_at,
   d.updated_at, d.closed_at, kwargsUser d.author,
   d.assignees.map kwargsUser, d.labels, d.milestone, d.comments,
   d.gitlab_url⟩

/-- Merge-request reconstruction in `import_metadata` (source lines
1131–1136): rebuild the author, and the assignee only when truthy. -/
def rebuild_mr (d : MergeRequestDict) : MergeRequestData :=
  ⟨d.id, d.iid, d.title, d.description, d.state, d.created_at,
   d.updated_at, d.closed_at, d.merged_at, kwargsUser d.author,
   d.assignee.map kwargsUser, d.labels, d.milestone, d.source_branch,
   d.target_branch, d.comments, d.gitlab_url, d.sha⟩

/-! ## One import pass and sample data -/

/-- One label-and-milestone import pass over a repository state, in the
order of `import_metadata` (source lines 1144–1148): labels first, then
milestones. -/
def run_once (labels : List LabelDict) (milestones : List MilestoneDict)
    (st : RepoState) : RepoState :=
  (import_milestones milestones (import_labels labels st).2.1).2.1

/-- Sample identity mapping for concrete instantiations. -/
def sampleUser : UserMapping := ⟨"alice", 1, none, none, some "Alice", none⟩

/-- Sample comment record. -/
def sampleComment : CommentData :=
  ⟨100, "first", "2020-01-01", "2020-01-01", asdictUser sampleUser,
   "https://gitlab.example/p/-/issues/7#note_100"⟩

/-- Sample closed issue. -/
def sampleIssueClosed : IssueData :=
  ⟨10, 7, "broken", "it breaks", "closed", "2020-01-01", "2020-01-02",
   some "2020-01-02", sampleUser, [sampleUser], ["bug"], none,
   [sampleComment], "https://gitlab.example/p/-/issues/7"⟩

/-- Sample source merge request in a given state. -/
def sampleSrcMR (st : String) : SrcMR :=
  ⟨1, 1, "mr", none, st, "2020-01-01", "2020-01-01", none, none, 1, none,
   [], none, "feature", "main", none, none⟩

/-- Sample project whose issue enumeration raises. -/
def badIssuesProject : GitLabProject :=
  ⟨"https://gitlab.example/p", Except.error "403 Forbidden",
   Except.ok [], Except.ok [], Except.ok []⟩

/-- Sample wrapped destination call: fails transiently on the first two
attempts, succeeds on the third. -/
def sampleRetryCall : Nat → Except String Nat :=
  fun n => if n < 2 then Except.error "transient" else Except.ok 42

/-! # Theorems -/

/-- C6: for every identity mapping, the resolved display string follows
the three-way fallback chain: a truthy destination username yields a
destination mention, otherwise a truthy fallback display name yields
that name, otherwise the literal source-username-plus-origin string. -/
theorem C6_identity_fallback_chain (m : UserMapping) :
    (∀ g, m.github_username = some g → g ≠ "" →
      resolve_github_username m = "@" ++ g) ∧
    (truthyStr m.github_username = false →
      ∀ f, m.fallback_name = some f → f ≠ "" →
        resolve_github_username m = f) ∧
    (truthyStr m.github_username = false → truthyStr m.fallback_name = false →
      resolve_github_username m = "@" ++ m.gitlab_username ++ " (GitLab)") := by
  refine ⟨?_, ?_, ?_⟩
  · intro g hg hne
    simp [resolve_github_username, truthyStr, hg, hne]
  · intro h f hf hne
    have ht : truthyStr (some f) = true := by
      simp [truthyStr, hne]
    simp [resolve_github_username, h, hf, ht]
  · intro h h2
    simp [resolve_github_username, h, h2]

/-- Witness for C6 at a mapping with neither destination username nor
fallback name. -/
theorem C6_witness :
    resolve_github_username ⟨"alice", 1, none, none, none, none⟩ =
      "@alice (GitLab)" :=
  ((C6_identity_fallback_chain ⟨"alice", 1, none, none, none, none⟩).2.2
    rfl rfl).trans (by decide)

/-- C2: `retry_with_backoff` makes at most 3 attempts, sleeping 2 then
4 time units between failing attempts; a success returns that attempt's
result with no further sleep; after three failures the last error
propagates. -/
theorem C2_retry_backoff {E A : Type} (f : Nat → Except E A) :
    (∀ a, f 0 = Except.ok a →
      retry_with_backoff f = ([], 1, some (Except.ok a))) ∧
    (∀ e a, f 0 = Except.error e → f 1 = Except.ok a →
      retry_with_backoff f = ([2], 2, some (Except.ok a))) ∧
    (∀ e e' a, f 0 = Except.error e → f 1 = Except.error e' →
      f 2 = Except.ok a →
      retry_with_backoff f = ([2, 4], 3, some (Except.ok a))) ∧
    (∀ e e' e2, f 0 = Except.error e → f 1 = Except.error e' →
      f 2 = Except.error e2 →
      retry_with_backoff f = ([2, 4], 3, some (Except.error e2))) ∧
    (retry_with_backoff f).2.1 ≤ 3 := by
  have hr : retry_with_backoff f = retry_go f [0, 1, 2] := rfl
  refine ⟨?_, ?_, ?_, ?_, ?_⟩
  · intro a h0
    rw [hr]; simp [retry_go, h0]
  · intro e a h0 h1
    rw [hr]
    simp [retry_go, h0, h1, MAX_RETRY_ATTEMPTS, RETRY_DELAY_SECONDS]
  · intro e e' a h0 h1 h2
    rw [hr]
    simp [retry_go, h0, h1, h2, MAX_RETRY_ATTEMPTS, RETRY_DELAY_SECONDS]
  · intro e e' e2 h0 h1 h2
    rw [hr]
    simp [retry_go, h0, h1, h2, MAX_RETRY_ATTEMPTS, RETRY_DELAY_SECONDS]
  · rw [hr]
    rcases h0 : f 0 with e0 | a0 <;> rcases h1 : f 1 with e1 | a1 <;>
      rcases h2 : f 2 with e2 | a2 <;>
      simp [retry_go, h0, h1, h2, MAX_RETRY_ATTEMPTS, RETRY_DELAY_SECONDS]

/-- Witness for C2: a call failing transiently exactly twice incurs
sleeps of 2 and 4 and returns the third attempt's result. -/
theorem C2_witness :
    retry_with_backoff sampleRetryCall = ([2, 4], 3, some (Except.ok 42)) :=
  (C2_retry_backoff sampleRetryCall).2.2.1 "transient" "transient" 42
    rfl rfl rfl

/-- C9 counterexample: after a low-quota warning, observing recovered
quota does not reset the warned flag, so a later drop below the reserve
threshold does not warn again — three probes reading 5, 5000, 5 emit
one warning in total, not two, and the flag stays set across the
recovery. -/
theorem C9_counterexample :
    check_rate_limit [5000] true = (0, true, []) ∧
    run_rate_checks [[5], [5000], [5]] false = (1, true) := by
  constructor <;> rfl

/-- C9 (amended): the warning is emitted at most once while quota stays
low; the warned flag is reset only on the exhaustion path (a zero
reading followed by the blocking wait), not when quota is merely
observed to have recovered above the threshold. -/
theorem C9_rate_limit_flag :
    (∀ r rest w, RATE_LIMIT_BUFFER ≤ r →
      check_rate_limit (r :: rest) w = (0, w, rest)) ∧
    (∀ r rest, 0 < r → r < RATE_LIMIT_BUFFER →
      check_rate_limit (r :: rest) true = (0, true, rest)) ∧
    (∀ r rest, 0 < r → r < RATE_LIMIT_BUFFER →
      check_rate_limit (r :: rest) false = (1, true, rest)) ∧
    (∀ rest w, check_rate_limit (0 :: rest) w =
      ((if w then 0 else 1) + (check_rate_limit rest false).1,
       (check_rate_limit rest false).2.1,
       (check_rate_limit rest false).2.2)) := by
  refine ⟨?_, ?_, ?_, ?_⟩
  · intro r rest w h
    simp only [RATE_LIMIT_BUFFER] at h
    have hn : ¬ r < RATE_LIMIT_BUFFER := by
      simp only [RATE_LIMIT_BUFFER]
      omega
    simp [check_rate_limit, hn]
  · intro r rest h0 h
    have : r ≠ 0 := by omega
    simp [check_rate_limit, h, this]
  · intro r rest h0 h
    have : r ≠ 0 := by omega
    simp [check_rate_limit, h, this]
  · intro rest w
    rcases h : check_rate_limit rest false with ⟨n, w2, r2⟩
    simp [check_rate_limit, RATE_LIMIT_BUFFER, h]

/-- Witness for C9: a first low nonzero reading warns and sets the
flag. -/
theorem C9_witness : check_rate_limit [5] false = (1, true, []) :=
  (C9_rate_limit_flag.2.2.1) 5 [] (by decide) (by decide)

/-- C3: evaluating the user-collection pass of `export_metadata` at a
snapshot with a single issue raises `TypeError`, because the plain
`@dataclass` declaration of `UserMapping` (`eq=True`, `frozen=False`)
sets `__hash__ = None`; moreover the generated equality compares all
fields, so two mappings agreeing on source username and id but
differing elsewhere are not equal. -/
theorem C3_unhashable_dataclass :
    collect_all_users [sampleIssueClosed] [] =
      Except.error "TypeError: unhashable type" ∧
    dataclass_eq ⟨"alice", 1, none, none, some "Alice A", none⟩
      ⟨"alice", 1, none, none, some "Alice B", none⟩ = false := by
  constructor
  · rfl
  · decide

/-- C5: extraction keeps exactly the merge requests whose state is
closed or merged, and every extracted record is in one of those two
states (an open one never appears); at the category level a successful
enumeration extracts exactly that filtered list. -/
theorem C5_terminal_state_filter (getU : Int → UserMapping) (url : String)
    (mrs : List SrcMR) :
    extract_mrs_go getU url mrs =
      (mrs.filter (fun mr => mr.state == "closed" || mr.state == "merged")).map
        (mr_from_src getU url) ∧
    (∀ m ∈ extract_mrs_go getU url mrs,
      m.state = "closed" ∨ m.state = "merged") ∧
    (∀ p : GitLabProject, p.mrs_list = Except.ok mrs → p.web_url = url →
      extract_merge_requests getU p = Except.ok (extract_mrs_go getU url mrs)) := by
  refine ⟨?_, ?_, ?_⟩
  · induction mrs with
    | nil => rfl
    | cons mr rest ih =>
      by_cases h : mr.state = "closed" ∨ mr.state = "merged"
      · simp [extract_mrs_go, h, ih]
      · push_neg at h
        simp [extract_mrs_go, h.1, h.2, ih]
  · induction mrs with
    | nil => intro m hm; simp [extract_mrs_go] at hm
    | cons mr rest ih =>
      intro m hm
      by_cases h : mr.state = "closed" ∨ mr.state = "merged"
      · simp [extract_mrs_go, h] at hm
        rcases hm with hm | hm
        · subst hm
          exact h
        · exact ih m hm
      · push_neg at h
        simp [extract_mrs_go, h.1, h.2] at hm
        exact ih m hm
  · intro p hp hu
    simp [extract_merge_requests, hp, hu]

/-- Witness for C5: from a source set with one open, one closed and one
merged change request, exactly the closed and merged ones are
extracted. -/
theorem C5_witness :
    extract_mrs_go placeholder_user "u"
        [sampleSrcMR "opened", sampleSrcMR "closed", sampleSrcMR "merged"] =
      [mr_from_src placeholder_user "u" (sampleSrcMR "closed"),
       mr_from_src placeholder_user "u" (sampleSrcMR "merged")] := by
  rw [(C5_terminal_state_filter placeholder_user "u"
    [sampleSrcMR "opened", sampleSrcMR "closed", sampleSrcMR "merged"]).1]
  rfl

/-- C7 counterexample: a failure enumerating the issue category does
not degrade to an empty list — it propagates out of `extract_issues`
and makes the whole export fail, so the remaining categories are never
extracted. -/
theorem C7_counterexample :
    extract_issues placeholder_user badIssuesProject =
      Except.error "403 Forbidden" ∧
    extract_issues placeholder_user badIssuesProject ≠ Except.ok [] ∧
    export_metadata placeholder_user badIssuesProject =
      Except.error "403 Forbidden" := by
  refine ⟨rfl, ?_, rfl⟩
  intro h
  have h1 : extract_issues placeholder_user badIssuesProject =
      Except.error "403 Forbidden" := rfl
  rw [h1] at h
  exact Except.noConfusion h

/-- C7 (amended): a category-enumeration failure degrades to an empty
list only for labels and milestones; for issues and merge requests it
propagates to the caller, and an issue-enumeration failure aborts the
whole export. -/
theorem C7_category_failures :
    (∀ (p : GitLabProject) e, p.labels_list = Except.error e →
      extract_labels p = []) ∧
    (∀ (p : GitLabProject) e, p.milestones_list = Except.error e →
      extract_milestones p = []) ∧
    (∀ (getU : Int → UserMapping) (p : GitLabProject) e,
      p.issues_list = Except.error e →
      extract_issues getU p = Except.error e) ∧
    (∀ (getU : Int → UserMapping) (p : GitLabProject) e,
      p.mrs_list = Except.error e →
      extract_merge_requests getU p = Except.error e) ∧
    (∀ (getU : Int → UserMapping) (p : GitLabProject) e,
      p.issues_list = Except.error e →
      export_metadata getU p = Except.error e) := by
  refine ⟨?_, ?_, ?_, ?_, ?_⟩
  · intro p e h; simp [extract_labels, h]
  · intro p e h; simp [extract_milestones, h]
  · intro getU p e h; simp [extract_issues, h]
  · intro getU p e h; simp [extract_merge_requests, h]
  · intro getU p e h; simp [export_metadata, extract_issues, h]

/-- Witness for the amended C7 at a project whose label enumeration
raises. -/
theorem C7_witness :
    extract_labels
      ⟨"u", Except.ok [], Except.ok [], Except.error "403", Except.ok []⟩ =
      [] :=
  C7_category_failures.1
    ⟨"u", Except.ok [], Except.ok [], Except.error "403", Except.ok []⟩
    "403" rfl

/-- C8: flattening a snapshot record to its dict form and rebuilding
it reconstructs a structurally identical record — issue authors and
assignees and merge-request authors and optional assignees come back as
equal `UserMapping` objects, and comment dicts (including their author
data) are carried through unchanged. -/
theorem C8_snapshot_roundtrip :
    (∀ u : UserMapping, kwargsUser (asdictUser u) = u) ∧
    (∀ i : IssueData, rebuild_issue (asdict_issue i) = i) ∧
    (∀ m : MergeRequestData, rebuild_mr (asdict_mr m) = m) ∧
    (∀ i : IssueData, (asdict_issue i).comments = i.comments) := by
  have hu : ∀ u : UserMapping, kwargsUser (asdictUser u) = u := fun u => rfl
  have hl : ∀ l : List UserMapping, (l.map asdictUser).map kwargsUser = l := by
    intro l
    induction l with
    | nil => rfl
    | cons a t ih => simp [ih, hu a]
  refine ⟨hu, ?_, ?_, fun i => rfl⟩
  · intro i
    cases i
    simp [rebuild_issue, asdict_issue, hl, hu]
  · intro m
    cases m with
    | mk id iid title d st ca ua cla ma au asg lb ml sb tb cm gu sha =>
      simp [rebuild_mr, asdict_mr, hl]
      cases asg <;> simp [hu]

/-! ## Lemmas on the label and milestone import passes -/

theorem lookup_dictInsert_self {α : Type} (d : List (String × α))
    (k : String) (v : α) : List.lookup k (dictInsert d k v) = some v := by
  induction d with
  | nil => simp [dictInsert, List.lookup]
  | cons p rest ih =>
    rcases p with ⟨a, b⟩
    by_cases h : a = k
    · simp [dictInsert, h, List.lookup]
    · have hk : (k == a) = false := beq_eq_false_iff_ne.mpr (Ne.symm h)
      simp [dictInsert, h, List.lookup, hk, ih]

theorem lookup_dictInsert_ne {α : Type} (d : List (String × α))
    {n k : String} (v : α) (h : n ≠ k) :
    List.lookup n (dictInsert d k v) = List.lookup n d := by
  induction d with
  | nil => simp [dictInsert, List.lookup, beq_eq_false_iff_ne.mpr h]
  | cons p rest ih =>
    rcases p with ⟨a, b⟩
    by_cases ha : a = k
    · subst ha
      simp [dictInsert, List.lookup, beq_eq_false_iff_ne.mpr h]
    · by_cases hn : n = a
      · subst hn
        simp [dictInsert, ha, List.lookup]
      · simp [dictInsert, ha, List.lookup, beq_eq_false_iff_ne.mpr hn, ih]

theorem get_label_isSome_iff (st : RepoState) (n : String) :
    (get_label st n).isSome = true ↔ ∃ l ∈ st.labels, l.name = n := by
  simp [get_label, List.find?_isSome]

theorem get_label_none_iff (st : RepoState) (n : String) :
    get_label st n = none ↔ ∀ l ∈ st.labels, l.name ≠ n := by
  simp [get_label, List.find?_eq_none]

theorem find_milestone_isSome_iff (st : RepoState) (n : String) :
    (find_milestone st n).isSome = true ↔ ∃ m ∈ st.milestones, m.title = n := by
  simp [find_milestone, List.find?_isSome]

theorem find_milestone_none_iff (st : RepoState) (n : String) :
    find_milestone st n = none ↔ ∀ m ∈ st.milestones, m.title ≠ n := by
  simp [find_milestone, List.find?_eq_none]

theorem lab_go_milestones (ls : List LabelDict) :
    ∀ st acc, (import_labels_go st acc ls).2.1.milestones = st.milestones := by
  induction ls with
  | nil => intro st acc; rfl
  | cons ld rest ih =>
    intro st acc
    cases hg : get_label st ld.name with
    | some l => simp [import_labels_go, hg, ih]
    | none => simp [import_labels_go, hg, ih, add_label]

theorem mil_go_labels (ms : List MilestoneDict) :
    ∀ st acc, (import_milestones_go st acc ms).2.1.labels = st.labels := by
  induction ms with
  | nil => intro st acc; rfl
  | cons md rest ih =>
    intro st acc
    cases hg : find_milestone st md.title with
    | some m => simp [import_milestones_go, hg, ih]
    | none => simp [import_milestones_go, hg, ih, add_milestone]

theorem lab_go_labels_mono (ls : List LabelDict) :
    ∀ st acc x, x ∈ st.labels →
      x ∈ (import_labels_go st acc ls).2.1.labels := by
  induction ls with
  | nil => intro st acc x hx; exact hx
  | cons ld rest ih =>
    intro st acc x hx
    cases hg : get_label st ld.name with
    | some l =>
      simp only [import_labels_go, hg]
      exact ih st _ x hx
    | none =>
      simp only [import_labels_go, hg]
      exact ih _ _ x (by simp [add_label, hx])

theorem mil_go_milestones_mono (ms : List MilestoneDict) :
    ∀ st acc x, x ∈ st.milestones →
      x ∈ (import_milestones_go st acc ms).2.1.milestones := by
  induction ms with
  | nil => intro st acc x hx; exact hx
  | cons md rest ih =>
    intro st acc x hx
    cases hg : find_milestone st md.title with
    | some m =>
      simp only [import_milestones_go, hg]
      exact ih st _ x hx
    | none =>
      simp only [import_milestones_go, hg]
      exact ih _ _ x (by simp [add_milestone, hx])

theorem lab_go_present (ls : List LabelDict) :
    ∀ st acc, ∀ ld ∈ ls,
      ∃ l ∈ (import_labels_go st acc ls).2.1.labels, l.name = ld.name := by
  induction ls with
  | nil => intro st acc ld hld; simp at hld
  | cons ld0 rest ih =>
    intro st acc ld hld
    cases hg : get_label st ld0.name with
    | some l =>
      simp only [import_labels_go, hg]
      rcases List.mem_cons.mp hld with h | h
      · subst h
        have hg' : st.labels.find? (fun x => x.name == ld.name) = some l := hg
        have hmem : l ∈ st.labels := List.mem_of_find?_eq_some hg'
        have hname : l.name = ld.name := by
          simpa using List.find?_some hg'
        exact ⟨l, lab_go_labels_mono rest st _ l hmem, hname⟩
      · exact ih st _ ld h
    | none =>
      simp only [import_labels_go, hg]
      rcases List.mem_cons.mp hld with h | h
      · subst h
        refine ⟨new_label ld, ?_, rfl⟩
        exact lab_go_labels_mono rest _ _ _ (by simp [add_label])
      · exact ih _ _ ld h

theorem mil_go_present (ms : List MilestoneDict) :
    ∀ st acc, ∀ md ∈ ms,
      ∃ m ∈ (import_milestones_go st acc ms).2.1.milestones,
        m.title = md.title := by
  induction ms with
  | nil => intro st acc md hmd; simp at hmd
  | cons md0 rest ih =>
    intro st acc md hmd
    cases hg : find_milestone st md0.title with
    | some m =>
      simp only [import_milestones_go, hg]
      rcases List.mem_cons.mp hmd with h | h
      · subst h
        have hg' : st.milestones.find? (fun x => x.title == md.title) = some m := hg
        have hmem : m ∈ st.milestones := List.mem_of_find?_eq_some hg'
        have hname : m.title = md.title := by
          simpa using List.find?_some hg'
        exact ⟨m, mil_go_milestones_mono rest st _ m hmem, hname⟩
      · exact ih st _ md h
    | none =>
      simp only [import_milestones_go, hg]
      rcases List.mem_cons.mp hmd with h | h
      · subst h
        refine ⟨new_milestone md, ?_, rfl⟩
        exact mil_go_milestones_mono rest _ _ _ (by simp [add_milestone])
      · exact ih _ _ md h

theorem lab_go_state_const (ls : List LabelDict) :
    ∀ st acc, (∀ ld ∈ ls, (get_label st ld.name).isSome = true) →
      (import_labels_go st acc ls).2.1 = st := by
  induction ls with
  | nil => intro st acc _; rfl
  | cons ld0 rest ih =>
    intro st acc hall
    cases hg : get_label st ld0.name with
    | some l =>
      simp only [import_labels_go, hg]
      exact ih st _ (fun ld h => hall ld (List.mem_cons_of_mem _ h))
    | none =>
      have := hall ld0 (List.mem_cons_self _ _)
      rw [hg] at this
      simp at this

theorem mil_go_state_const (ms : List MilestoneDict) :
    ∀ st acc, (∀ md ∈ ms, (find_milestone st md.title).isSome = true) →
      (import_milestones_go st acc ms).2.1 = st := by
  induction ms with
  | nil => intro st acc _; rfl
  | cons md0 rest ih =>
    intro st acc hall
    cases hg : find_milestone st md0.title with
    | some m =>
      simp only [import_milestones_go, hg]
      exact ih st _ (fun md h => hall md (List.mem_cons_of_mem _ h))
    | none =>
      have := hall md0 (List.mem_cons_self _ _)
      rw [hg] at this
      simp at this

theorem lab_go_nodup (ls : List LabelDict) :
    ∀ st acc, (st.labels.map GHLabel.name).Nodup →
      ((import_labels_go st acc ls).2.1.labels.map GHLabel.name).Nodup := by
  induction ls with
  | nil => intro st acc h; exact h
  | cons ld0 rest ih =>
    intro st acc h
    cases hg : get_label st ld0.name with
    | some l =>
      simp only [import_labels_go, hg]
      exact ih st _ h
    | none =>
      simp only [import_labels_go, hg]
      apply ih
      have hn : ∀ x ∈ st.labels, x.name ≠ ld0.name :=
        (get_label_none_iff st ld0.name).mp hg
      have hnotin : ld0.name ∉ st.labels.map GHLabel.name := by
        intro hmem
        rcases List.mem_map.mp hmem with ⟨x, hx, hxe⟩
        exact hn x hx hxe
      have : (st.labels.map GHLabel.name ++ [ld0.name]).Nodup := by
        rw [List.nodup_append]
        refine ⟨h, List.nodup_singleton _, ?_⟩
        intro a ha hb
        rw [List.mem_singleton] at hb
        subst hb
        exact hnotin ha
      simpa [add_label, new_label] using this

theorem mil_go_nodup (ms : List MilestoneDict) :
    ∀ st acc, (st.milestones.map GHMilestone.title).Nodup →
      ((import_milestones_go st acc ms).2.1.milestones.map
        GHMilestone.title).Nodup := by
  induction ms with
  | nil => intro st acc h; exact h
  | cons md0 rest ih =>
    intro st acc h
    cases hg : find_milestone st md0.title with
    | some m =>
      simp only [import_milestones_go, hg]
      exact ih st _ h
    | none =>
      simp only [import_milestones_go, hg]
      apply ih
      have hn : ∀ x ∈ st.milestones, x.title ≠ md0.title :=
        (find_milestone_none_iff st md0.title).mp hg
      have hnotin : md0.title ∉ st.milestones.map GHMilestone.title := by
        intro hmem
        rcases List.mem_map.mp hmem with ⟨x, hx, hxe⟩
        exact hn x hx hxe
      have : (st.milestones.map GHMilestone.title ++ [md0.title]).Nodup := by
        rw [List.nodup_append]
        refine ⟨h, List.nodup_singleton _, ?_⟩
        intro a ha hb
        rw [List.mem_singleton] at hb
        subst hb
        exact hnotin ha
      simpa [add_milestone, new_milestone] using this

theorem lab_go_lookup_const (ls : List LabelDict) :
    ∀ st acc, (∀ ld ∈ ls, (get_label st ld.name).isSome = true) →
      ∀ n, List.lookup n (import_labels_go st acc ls).1 =
        if ls.any (fun ld => ld.name == n) then get_label st n
        else List.lookup n acc := by
  induction ls with
  | nil => intro st acc _ n; simp [import_labels_go]
  | cons ld0 rest ih =>
    intro st acc hall n
    have hs := hall ld0 (List.mem_cons_self _ _)
    cases hg : get_label st ld0.name with
    | none => rw [hg] at hs; simp at hs
    | some l =>
      have hrest : ∀ ld ∈ rest, (get_label st ld.name).isSome = true :=
        fun ld h => hall ld (List.mem_cons_of_mem _ h)
      simp only [import_labels_go, hg]
      rw [ih st (dictInsert acc ld0.name l) hrest n]
      by_cases hn : ld0.name = n
      · subst hn
        by_cases hr : rest.any (fun ld => ld.name == ld0.name) = true
        · simp [hr]
        · simp only [Bool.not_eq_true] at hr
          simp [hr, lookup_dictInsert_self, hg]
      · have hb : (ld0.name == n) = false := beq_eq_false_iff_ne.mpr hn
        by_cases hr : rest.any (fun ld => ld.name == n) = true
        · simp [hr, hb]
        · simp only [Bool.not_eq_true] at hr
          simp [hr, hb, lookup_dictInsert_ne _ _ (Ne.symm hn)]

theorem mil_go_lookup_const (ms : List MilestoneDict) :
    ∀ st acc, (∀ md ∈ ms, (find_milestone st md.title).isSome = true) →
      ∀ n, List.lookup n (import_milestones_go st acc ms).1 =
        if ms.any (fun md => md.title == n) then find_milestone st n
        else List.lookup n acc := by
  induction ms with
  | nil => intro st acc _ n; simp [import_milestones_go]
  | cons md0 rest ih =>
    intro st acc hall n
    have hs := hall md0 (List.mem_cons_self _ _)
    cases hg : find_milestone st md0.title with
    | none => rw [hg] at hs; simp at hs
    | some m =>
      have hrest : ∀ md ∈ rest, (find_milestone st md.title).isSome = true :=
        fun md h => hall md (List.mem_cons_of_mem _ h)
      simp only [import_milestones_go, hg]
      rw [ih st (dictInsert acc md0.title m) hrest n]
      by_cases hn : md0.title = n
      · subst hn
        by_cases hr : rest.any (fun md => md.title == md0.title) = true
        · simp [hr]
        · simp only [Bool.not_eq_true] at hr
          simp [hr, lookup_dictInsert_self, hg]
      · have hb : (md0.title == n) = false := beq_eq_false_iff_ne.mpr hn
        by_cases hr : rest.any (fun md => md.title == n) = true
        · simp [hr, hb]
        · simp only [Bool.not_eq_true] at hr
          simp [hr, hb, lookup_dictInsert_ne _ _ (Ne.symm hn)]

/-- C1: labels and milestones are imported lookup-first — with
duplicate-free destination names to start from, one pass leaves exactly
one destination object per unique name (every imported name present,
destination names still duplicate-free), a second identical pass
changes the destination state not at all (creates nothing), and the
second pass's result tables map every name to the object already on the
destination. -/
theorem C1_idempotent_import (L : List LabelDict) (M : List MilestoneDict)
    (st : RepoState)
    (hL : (st.labels.map GHLabel.name).Nodup)
    (hM : (st.milestones.map GHMilestone.title).Nodup) :
    run_once L M (run_once L M st) = run_once L M st ∧
    ((run_once L M st).labels.map GHLabel.name).Nodup ∧
    ((run_once L M st).milestones.map GHMilestone.title).Nodup ∧
    (∀ ld ∈ L, ∃ l ∈ (run_once L M st).labels, l.name = ld.name) ∧
    (∀ md ∈ M, ∃ m ∈ (run_once L M st).milestones, m.title = md.title) ∧
    (∀ ld ∈ L,
      List.lookup ld.name (import_labels L (run_once L M st)).1 =
        get_label (run_once L M st) ld.name) ∧
    (∀ md ∈ M,
      List.lookup md.title
          (import_milestones M (import_labels L (run_once L M st)).2.1).1 =
        find_milestone (run_once L M st) md.title) := by
  set st1 := (import_labels L st).2.1 with hst1
  set st2 := (import_milestones M st1).2.1 with hst2
  have hrun : run_once L M st = st2 := rfl
  have hlabs : st2.labels = st1.labels := mil_go_labels M st1 []
  have hpresL : ∀ ld ∈ L, ∃ l ∈ st2.labels, l.name = ld.name := by
    intro ld hld
    rw [hlabs]
    exact lab_go_present L st [] ld hld
  have hpresM : ∀ md ∈ M, ∃ m ∈ st2.milestones, m.title = md.title :=
    fun md hmd => mil_go_present M st1 [] md hmd
  have hnodL1 : (st1.labels.map GHLabel.name).Nodup := lab_go_nodup L st [] hL
  have hmils1 : st1.milestones = st.milestones := lab_go_milestones L st []
  have hnodM2 : (st2.milestones.map GHMilestone.title).Nodup :=
    mil_go_nodup M st1 [] (by rw [hmils1]; exact hM)
  have hnodL2 : (st2.labels.map GHLabel.name).Nodup := by
    rw [hlabs]; exact hnodL1
  have hallL : ∀ ld ∈ L, (get_label st2 ld.name).isSome = true :=
    fun ld hld => (get_label_isSome_iff st2 ld.name).mpr (hpresL ld hld)
  have hst3 : (import_labels L st2).2.1 = st2 :=
    lab_go_state_const L st2 [] hallL
  have hallM2 : ∀ md ∈ M, (find_milestone st2 md.title).isSome = true :=
    fun md hmd => (find_milestone_isSome_iff st2 md.title).mpr (hpresM md hmd)
  have hallM : ∀ md ∈ M,
      (find_milestone ((import_labels L st2).2.1) md.title).isSome = true := by
    intro md hmd
    rw [hst3]
    exact hallM2 md hmd
  have hst4 :
      (import_milestones M ((import_labels L st2).2.1)).2.1 =
        (import_labels L st2).2.1 :=
    mil_go_state_const M _ [] hallM
  have hidem : run_once L M st2 = st2 := hst4.trans hst3
  have hlookL : ∀ ld ∈ L,
      List.lookup ld.name (import_labels L st2).1 = get_label st2 ld.name := by
    intro ld hld
    show List.lookup ld.name (import_labels_go st2 [] L).1 =
      get_label st2 ld.name
    rw [lab_go_lookup_const L st2 [] hallL ld.name]
    have : L.any (fun x => x.name == ld.name) = true :=
      List.any_eq_true.mpr ⟨ld, hld, by simp⟩
    simp [this]
  have hlookM : ∀ md ∈ M,
      List.lookup md.title
          (import_milestones M (import_labels L st2).2.1).1 =
        find_milestone st2 md.title := by
    intro md hmd
    rw [hst3]
    show List.lookup md.title (import_milestones_go st2 [] M).1 =
      find_milestone st2 md.title
    rw [mil_go_lookup_const M st2 [] hallM2 md.title]
    have : M.any (fun x => x.title == md.title) = true :=
      List.any_eq_true.mpr ⟨md, hmd, by simp⟩
    simp [this]
  rw [hrun]
  exact ⟨hidem, hnodL2, hnodM2, hpresL, hpresM, hlookL, hlookM⟩

/-- Witness for C1: importing one label and one milestone into an empty
repository twice leaves the state of the first pass unchanged. -/
theorem C1_witness :
    run_once [⟨"bug", "desc", "ff0000"⟩]
        [⟨"v1", "d", "active", none, "t", "t"⟩]
        (run_once [⟨"bug", "desc", "ff0000"⟩]
          [⟨"v1", "d", "active", none, "t", "t"⟩] ⟨[], []⟩) =
      run_once [⟨"bug", "desc", "ff0000"⟩]
        [⟨"v1", "d", "active", none, "t", "t"⟩] ⟨[], []⟩ :=
  (C1_idempotent_import _ _ _ (by simp) (by simp)).1

/-! ## Lemmas on the issue import pass and the run trace -/

theorem issues_go_imported_indep (co eo : IssueData → Bool)
    (ko ko' : CommentData → Bool) (ils : List (String × GHLabel))
    (ims : List (String × GHMilestone)) (url : String) :
    ∀ issues n, (import_issues_go co eo ko ils ims url issues n).1 =
      (import_issues_go co eo ko' ils ims url issues n).1 := by
  intro issues
  induction issues with
  | nil => intro n; rfl
  | cons d rest ih =>
    intro n
    by_cases hc : co d = true
    · by_cases hs : (d.state == "closed") = true
      · by_cases he : eo d = true
        · simp [import_issues_go, hc, hs, he, ih]
        · simp [import_issues_go, hc, hs, he, ih]
      · simp [import_issues_go, hc, hs, ih]
    · simp [import_issues_go, hc, ih]

theorem issues_go_trace_blocks (co eo : IssueData → Bool)
    (ko : CommentData → Bool) (ils : List (String × GHLabel))
    (ims : List (String × GHMilestone)) (url : String) :
    ∀ issues n, (import_issues_go co eo ko ils ims url issues n).2 =
      issues.flatMap (issue_block co eo ko) := by
  intro issues
  induction issues with
  | nil => intro n; rfl
  | cons d rest ih =>
    intro n
    by_cases hc : co d = true
    · by_cases hs : (d.state == "closed") = true
      · by_cases he : eo d = true
        · simp [import_issues_go, issue_block, hc, hs, he, ih]
        · simp [import_issues_go, issue_block, hc, hs, he, ih]
      · simp [import_issues_go, issue_block, hc, hs, ih]
    · simp [import_issues_go, issue_block, hc, ih]

theorem issues_go_mem_imported (co eo : IssueData → Bool)
    (ko : CommentData → Bool) (ils : List (String × GHLabel))
    (ims : List (String × GHMilestone)) (url : String) :
    ∀ issues n, ∀ d ∈ issues, co d = true →
      (d.state = "closed" → eo d = true) →
      ∃ e ∈ (import_issues_go co eo ko ils ims url issues n).1,
        e.gitlab_id = d.id ∧ e.gitlab_iid = d.iid := by
  intro issues
  induction issues with
  | nil => intro n d hd; simp at hd
  | cons d0 rest ih =>
    intro n d hd hco hcl
    rcases List.mem_cons.mp hd with h | h
    · subst h
      by_cases hs : (d.state == "closed") = true
      · have he : eo d = true := hcl (by simpa using hs)
        refine ⟨⟨d.id, d.iid, n, url ++ "/issues/" ++ toString n⟩, ?_, rfl, rfl⟩
        simp [import_issues_go, hco, hs, he, List.mem_cons]
      · refine ⟨⟨d.id, d.iid, n, url ++ "/issues/" ++ toString n⟩, ?_, rfl, rfl⟩
        simp [import_issues_go, hco, hs, List.mem_cons]
    · by_cases hc0 : co d0 = true
      · by_cases hs0 : (d0.state == "closed") = true
        · by_cases he0 : eo d0 = true
          · rcases ih (n + 1) d h hco hcl with ⟨e, he1, he2⟩
            refine ⟨e, ?_, he2⟩
            simp [import_issues_go, hc0, hs0, he0, List.mem_cons]
            exact Or.inr he1
          · rcases ih (n + 1) d h hco hcl with ⟨e, he1, he2⟩
            refine ⟨e, ?_, he2⟩
            simpa [import_issues_go, hc0, hs0, he0] using he1
        · rcases ih (n + 1) d h hco hcl with ⟨e, he1, he2⟩
          refine ⟨e, ?_, he2⟩
          simp [import_issues_go, hc0, hs0, List.mem_cons]
          exact Or.inr he1
      · rcases ih n d h hco hcl with ⟨e, he1, he2⟩
        refine ⟨e, ?_, he2⟩
        simpa [import_issues_go, hc0] using he1

theorem lab_go_trace_setup (ls : List LabelDict) :
    ∀ st acc, ∀ e ∈ (import_labels_go st acc ls).2.2, e.isSetup = true := by
  induction ls with
  | nil => intro st acc e he; simp [import_labels_go] at he
  | cons ld rest ih =>
    intro st acc e he
    cases hg : get_label st ld.name with
    | some l =>
      simp [import_labels_go, hg, List.mem_cons] at he
      rcases he with rfl | he
      · rfl
      · exact ih st _ e he
    | none =>
      simp [import_labels_go, hg, List.mem_cons] at he
      rcases he with rfl | rfl | he
      · rfl
      · rfl
      · exact ih _ _ e he

theorem mil_go_trace_setup (ms : List MilestoneDict) :
    ∀ st acc, ∀ e ∈ (import_milestones_go st acc ms).2.2, e.isSetup = true := by
  induction ms with
  | nil => intro st acc e he; simp [import_milestones_go] at he
  | cons md rest ih =>
    intro st acc e he
    cases hg : find_milestone st md.title with
    | some m =>
      simp [import_milestones_go, hg, List.mem_cons] at he
      rcases he with rfl | he
      · rfl
      · exact ih st _ e he
    | none =>
      simp [import_milestones_go, hg, List.mem_cons] at he
      rcases he with rfl | rfl | he
      · rfl
      · rfl
      · exact ih _ _ e he

theorem comment_events_not_setup (ko : CommentData → Bool) (iid : Int) :
    ∀ cs, ∀ e ∈ import_issue_comments ko iid cs, e.isSetup = false := by
  intro cs
  induction cs with
  | nil => intro e he; simp [import_issue_comments] at he
  | cons c rest ih =>
    intro e he
    by_cases hk : ko c = true
    · simp [import_issue_comments, hk, List.mem_cons] at he
      rcases he with rfl | he
      · rfl
      · exact ih e he
    · simp [import_issue_comments, hk] at he
      exact ih e he

theorem issue_block_not_setup (co eo : IssueData → Bool)
    (ko : CommentData → Bool) (d : IssueData) :
    ∀ e ∈ issue_block co eo ko d, e.isSetup = false := by
  intro e he
  by_cases hc : co d = true
  · by_cases hb : (d.state == "closed" && eo d) = true
    · simp [issue_block, hc, hb, List.mem_cons, List.mem_append] at he
      rcases he with rfl | he | rfl
      · rfl
      · exact comment_events_not_setup ko d.iid d.comments e he
      · rfl
    · rw [Bool.not_eq_true] at hb
      simp [issue_block, hc, hb, List.mem_cons, List.mem_append] at he
      rcases he with rfl | he
      · rfl
      · exact comment_events_not_setup ko d.iid d.comments e he
  · simp [issue_block, hc] at he

theorem issues_trace_not_setup (co eo : IssueData → Bool)
    (ko : CommentData → Bool) (ils : List (String × GHLabel))
    (ims : List (String × GHMilestone)) (url : String)
    (issues : List IssueData) (n : Nat) :
    ∀ e ∈ (import_issues_go co eo ko ils ims url issues n).2,
      e.isSetup = false := by
  intro e he
  rw [issues_go_trace_blocks co eo ko ils ims url issues n] at he
  rcases List.mem_flatMap.mp he with ⟨d, _, hbd⟩
  exact issue_block_not_setup co eo ko d e hbd

theorem create_not_setup (e : Event) (h : e.isCreateIssue = true) :
    e.isSetup = false := by
  cases e <;> simp [Event.isCreateIssue, Event.isSetup] at h ⊢

theorem trace_setup_position {t A B : List Event} (ht : t = A ++ B)
    (hA : ∀ e ∈ A, e.isSetup = true) (hB : ∀ e ∈ B, e.isSetup = false)
    (i j : Nat) (hi : i < t.length) (hj : j < t.length)
    (hci : (t.get ⟨i, hi⟩).isCreateIssue = true)
    (hsj : (t.get ⟨j, hj⟩).isSetup = true) : j < i := by
  subst ht
  simp only [List.get_eq_getElem] at hci hsj
  have hiA : ¬ i < A.length := by
    intro hlt
    have heq : (A ++ B)[i] = A[i] := List.getElem_append_left hlt
    rw [heq] at hci
    have hmem : A[i] ∈ A := List.getElem_mem hlt
    have h1 := hA _ hmem
    rw [create_not_setup _ hci] at h1
    exact Bool.noConfusion h1
  have hjA : j < A.length := by
    by_contra hge
    push_neg at hge
    have hlen : j - A.length < B.length := by
      have := List.length_append A B
      omega
    have heq : (A ++ B)[j] = B[j - A.length] := List.getElem_append_right hge
    rw [heq] at hsj
    have hmem : B[j - A.length] ∈ B := List.getElem_mem hlen
    have h1 := hB _ hmem
    rw [hsj] at h1
    exact Bool.noConfusion h1
  omega

theorem import_metadata_run_trace (L : List LabelDict)
    (M : List MilestoneDict) (issues : List IssueData)
    (co eo : IssueData → Bool) (ko : CommentData → Bool) (url : String)
    (st : RepoState) :
    (import_metadata_run L M issues co eo ko url st).trace =
      ((import_labels L st).2.2 ++
        (import_milestones M (import_labels L st).2.1).2.2) ++
      (import_issues_go co eo ko (import_labels L st).1
        (import_milestones M (import_labels L st).2.1).1
        url issues 1).2 := by
  rcases h1 : import_labels L st with ⟨ils, st1, t1⟩
  rcases h2 : import_milestones M st1 with ⟨ims, st2, t2⟩
  rcases h3 : import_issues_go co eo ko ils ims url issues 1 with ⟨ri, t3⟩
  simp [import_metadata_run, h1, h2, h3]

/-- C4: in a full import run no create-issue call ever precedes any
label or milestone import call, and the issue part of the trace is the
concatenation of per-issue blocks — each created issue is immediately
followed by its comment calls and then its close transition, before the
next issue is processed. -/
theorem C4_ordering (L : List LabelDict) (M : List MilestoneDict)
    (issues : List IssueData) (co eo : IssueData → Bool)
    (ko : CommentData → Bool) (url : String) (st : RepoState) :
    (∀ (i j : Nat)
      (hi : i < (import_metadata_run L M issues co eo ko url st).trace.length)
      (hj : j < (import_metadata_run L M issues co eo ko url st).trace.length),
      ((import_metadata_run L M issues co eo ko url st).trace.get
        ⟨i, hi⟩).isCreateIssue = true →
      ((import_metadata_run L M issues co eo ko url st).trace.get
        ⟨j, hj⟩).isSetup = true → j < i) ∧
    (∀ (ils : List (String × GHLabel)) (ims : List (String × GHMilestone))
      (n : Nat),
      (import_issues_go co eo ko ils ims url issues n).2 =
        issues.flatMap (issue_block co eo ko)) := by
  constructor
  · intro i j hi hj hci hsj
    refine trace_setup_position
      (import_metadata_run_trace L M issues co eo ko url st) ?_ ?_
      i j hi hj hci hsj
    · intro e he
      rcases List.mem_append.mp he with h | h
      · exact lab_go_trace_setup L st [] e h
      · exact mil_go_trace_setup M _ [] e h
    · intro e he
      exact issues_trace_not_setup co eo ko _ _ url issues 1 e he
  · intro ils ims n
    exact issues_go_trace_blocks co eo ko ils ims url issues n

/-- Witness for C4 on a one-label, one-milestone, one-issue run: the
sole create-issue call sits strictly after the setup calls. -/
theorem C4_witness :
    (import_metadata_run [⟨"bug", "d", "ff0000"⟩]
        [⟨"v1", "d", "active", none, "t", "t"⟩] [sampleIssueClosed]
        (fun _ => true) (fun _ => true) (fun _ => true)
        "https://github.example/r" ⟨[], []⟩).trace.length = 7 ∧ 2 < 4 :=
  ⟨by rfl,
   (C4_ordering [⟨"bug", "d", "ff0000"⟩]
      [⟨"v1", "d", "active", none, "t", "t"⟩] [sampleIssueClosed]
      (fun _ => true) (fun _ => true) (fun _ => true)
      "https://github.example/r" ⟨[], []⟩).1 4 2 (by decide) (by decide)
      (by decide) (by decide)⟩

/-- C10: a failure creating any comment of an issue is caught inside
the comment loop — the list of imported correlation records does not
depend on which comment calls fail, and for every issue whose creation
succeeded the close transition still happens (when the issue was
closed and its edit call succeeds) and the issue still appears in the
correlation list. -/
theorem C10_comment_failure_isolated (co eo : IssueData → Bool)
    (ko ko' : CommentData → Bool) (ils : List (String × GHLabel))
    (ims : List (String × GHMilestone)) (url : String)
    (issues : List IssueData) (n : Nat) :
    (import_issues_go co eo ko ils ims url issues n).1 =
      (import_issues_go co eo ko' ils ims url issues n).1 ∧
    (∀ d ∈ issues, co d = true →
      (d.state = "closed" → eo d = true →
        Event.closeIssue d.iid ∈
          (import_issues_go co eo ko ils ims url issues n).2) ∧
      ((d.state = "closed" → eo d = true) →
        ∃ e ∈ (import_issues_go co eo ko ils ims url issues n).1,
          e.gitlab_id = d.id ∧ e.gitlab_iid = d.iid)) := by
  refine ⟨issues_go_imported_indep co eo ko ko' ils ims url issues n, ?_⟩
  intro d hd hco
  constructor
  · intro hst he
    rw [issues_go_trace_blocks co eo ko ils ims url issues n]
    refine List.mem_flatMap.mpr ⟨d, hd, ?_⟩
    have hs : (d.state == "closed") = true := by simp [hst]
    simp [issue_block, hco, hs, he, List.mem_cons, List.mem_append]
  · intro hcl
    exact issues_go_mem_imported co eo ko ils ims url issues n d hd hco hcl

/-- Witness for C10: with every comment call failing, the closed sample
issue is still transitioned to closed. -/
theorem C10_witness :
    Event.closeIssue sampleIssueClosed.iid ∈
      (import_issues_go (fun _ => true) (fun _ => true) (fun _ => false)
        [] [] "https://github.example/r" [sampleIssueClosed] 1).2 :=
  (((C10_comment_failure_isolated (fun _ => true) (fun _ => true)
      (fun _ => false) (fun _ => true) [] [] "https://github.example/r"
      [sampleIssueClosed] 1).2 sampleIssueClosed (by simp) rfl).1) rfl rfl

end GitTransfer
